import Mathlib

/-!
Verification development for the Calypso server route-bootstrap pipeline
(`server/pages/index.js`): asset URL generation with content-hash
cache-busting, cookie-based auth gating with a remote user-bootstrap call,
legacy-URL redirect rewriting, and section-driven route registration.

The JavaScript is shallowly embedded: the filesystem, the MD5 digest (from
the `crypto` module), the clock and the external identity service are opaque
collaborators supplied as parameters; strings are Lean `String`s; JavaScript
objects used as string maps become insertion-ordered association lists with
JavaScript assignment semantics (an existing key keeps its position and gets
the new value); JavaScript truthiness of an optional string is modelled by
`jsTruthy` (absent or empty means falsy).
-/

namespace Calypso

/-- Truthiness of a JavaScript value that is either a string or absent
(`undefined`): absent and the empty string are falsy. -/
def jsTruthy : Option String → Bool
  | none => false
  | some s => !(s = "")

/-- Lookup in a JavaScript-object-as-map: first (and only) binding wins. -/
def jsGet : List (String × String) → String → Option String
  | [], _ => none
  | (k', v) :: rest, k => if k' = k then some v else jsGet rest k

/-- JavaScript property assignment on an object used as a string map: an
existing key keeps its position and is given the new value, a new key is
appended. -/
def jsSet : List (String × String) → String → String → List (String × String)
  | [], k, v => [(k, v)]
  | (k', v') :: rest, k, v =>
    if k' = k then (k', v) :: rest else (k', v') :: jsSet rest k v

/-- `String.prototype.replace` with a plain-string pattern: replace the
first occurrence of `pat` (non-empty) in `s`, or return `s` unchanged when
there is none. List-of-characters version. -/
def jsReplaceFirstL (pat repl : List Char) : List Char → List Char
  | [] => []
  | c :: rest =>
    if pat.isPrefixOf (c :: rest) then repl ++ (c :: rest).drop pat.length
    else c :: jsReplaceFirstL pat repl rest

/-- `String.prototype.replace` with a plain-string pattern, on `String`. -/
def jsReplaceFirst (pat repl s : String) : String :=
  String.mk (jsReplaceFirstL pat.toList repl.toList s.toList)

/-- UTF-8 bytes of a single code point, as `Nat`s below 256. -/
def utf8Bytes (c : Char) : List Nat :=
  let n := c.toNat
  if n < 128 then [n]
  else if n < 2048 then [192 + n / 64, 128 + n % 64]
  else if n < 65536 then [224 + n / 4096, 128 + (n / 64) % 64, 128 + n % 64]
  else [240 + n / 262144, 128 + (n / 4096) % 64, 128 + (n / 64) % 64, 128 + n % 64]

/-- Uppercase hexadecimal digits. -/
def hexChars : List Char :=
  ['0', '1', '2', '3', '4', '5', '6', '7', '8', '9', 'A', 'B', 'C', 'D', 'E', 'F']

/-- Percent-encoding of one byte, e.g. `%2F`. -/
def percentByte (b : Nat) : List Char :=
  ['%', hexChars.getD (b / 16) '0', hexChars.getD (b % 16) '0']

/-- Encode one character: keep it when `unreserved`, otherwise
percent-encode each of its UTF-8 bytes. -/
def encodeChar (unreserved : Char → Bool) (c : Char) : List Char :=
  if unreserved c then [c] else List.flatten ((utf8Bytes c).map percentByte)

/-- Characters left intact by ECMAScript `encodeURIComponent`. -/
def uriComponentUnreserved (c : Char) : Bool :=
  c.isAlphanum || ['-', '_', '.', '!', '~', '*', '(', ')', Char.ofNat 39].contains c

/-- ECMAScript `encodeURIComponent`. -/
def encodeURIComponent (s : String) : String :=
  String.mk (List.flatten (s.toList.map (encodeChar uriComponentUnreserved)))

/-- RFC 3986 unreserved characters, the set left intact by the `qs`
module's default escaper. -/
def rfc3986Unreserved (c : Char) : Bool :=
  c.isAlphanum || ['-', '.', '_', '~'].contains c

/-- The `qs` module's percent-escaping of one component. -/
def qsEscape (s : String) : String :=
  String.mk (List.flatten (s.toList.map (encodeChar rfc3986Unreserved)))

/-- Join strings with `&` separators. -/
def joinAmp : List String → String
  | [] => ""
  | [x] => x
  | x :: y :: rest => x ++ "&" ++ joinAmp (y :: rest)

/-- `qs.stringify` on a flat object of string-valued parameters (the only
shape this pipeline passes to it). -/
def qsStringify (q : List (String × String)) : String :=
  joinAmp (q.map (fun p => qsEscape p.1 ++ "=" ++ qsEscape p.2))

/-- Lookup of a query-string parameter on an Express `req.query` object,
modelled as an insertion-ordered list of string pairs. -/
def queryGet (q : List (String × String)) (k : String) : Option String :=
  (q.find? (fun p => p.1 == k)).map Prod.snd

/-! ## Data model -/

/-- A dynamic bundle-manifest entry from `request.app.get('assets')`:
a possibly absent name and a URL. -/
structure Asset where
  name : Option String
  url : String
deriving Repr, DecidableEq

/-- One entry of the module-level `staticFiles` array: a path plus the
process-lifetime memoised hash (`file.hash`), absent until first computed. -/
structure SFile where
  path : String
  hash : Option String
deriving Repr, DecidableEq

/-- The configuration keys this pipeline reads (`config(...)` and
`config.isEnabled(...)`). -/
structure Config where
  env : String
  i18n_default_locale_slug : String
  hostname : String
  login_url : String
  wpcom_user_bootstrap : Bool
  discover_logged_out_redirect_url : String
  enabled : String → Bool

/-- The structured error the external identity service reports:
an optional code (`error.error`) and a message (`error.message`). -/
structure ApiError where
  error : Option String
  message : String
deriving Repr, DecidableEq

/-- The fields of the bootstrapped user object this pipeline reads; the
rest of the object is carried opaquely into the context. -/
structure UserData where
  localeSlug : Option String
  isRTL : Bool
deriving Repr, DecidableEq

/-- The ambient collaborators of one request evaluation: configuration,
filesystem (`fs.readFileSync`, `none` when unreadable), the MD5 hex digest
from `crypto`, the clock (`Date.getTime`, milliseconds), the working
directory, and the external identity service (`user-bootstrap`) keyed by
the raw `Cookie` header. -/
structure Env where
  cfg : Config
  fsys : String → Option (List Nat)
  md5hex : List Nat → String
  now : Nat
  cwd : String
  userApi : Option String → Except ApiError UserData

/-- The parts of an Express request this pipeline reads. `chunkCtx` is the
`chunk` field an earlier code-splitting middleware may have stored on
`req.context`. -/
structure Request where
  wordpress_logged_in : Option String
  cookieHeader : Option String
  xForwardedProto : Option String
  originalUrl : String
  path : String
  query : List (String × String)
  ip : Option String
  assets : List Asset
  chunkCtx : Option String
deriving Repr, DecidableEq

/-- The `context.app` sub-object built by `getDefaultContext`. -/
structure AppCtx where
  clientIp : Option String
  isDebug : Bool
  tinymceWpSkin : Option String
  tinymceEditorCss : Option String
deriving Repr, DecidableEq

/-- The per-request rendering context. `user` is `false` (here `none`)
until the identity service resolves; `isRTL` is absent until then. The
fresh Redux store handle is opaque to this pipeline and omitted. -/
structure Context where
  chunk : Option String
  compileDebug : Bool
  urls : List (String × String)
  user : Option UserData
  isDebug : Bool
  lang : String
  jsFile : String
  isRTL : Option Bool
  app : AppCtx
deriving Repr, DecidableEq

/-- What a middleware did with the response. -/
inductive ResponseAction where
  | redirect (url : String)
  | render (status : Nat) (view : String) (ctx : Context)
  | renderUrls (status : Nat) (view : String) (urls : List (String × String))
  | next (ctx : Context)
deriving Repr, DecidableEq

/-- Observable outcome of one middleware run: the response action, the
headers it `res.set`, whether the external identity call was issued, and
the `console.log` output if any. -/
structure RouteOutcome where
  response : ResponseAction
  headers : List (String × String)
  apiCalled : Bool
  logged : Option String
deriving Repr, DecidableEq

/-! ## Asset URL resolver (`hashFile`, `generateStaticUrls`) -/

/-- `HASH_LENGTH` from the source. -/
def HASH_LENGTH : Nat := 10

/-- `URL_BASE_PATH` from the source. -/
def URL_BASE_PATH : String := "/calypso"

/-- `SERVER_BASE_PATH` from the source. -/
def SERVER_BASE_PATH : String := "/public"

/-- The `staticFiles` paths, for a given `config('env')`. -/
def staticFilePaths (envName : String) : List String :=
  ["style.css", "editor.css", "tinymce/skins/wordpress/wp-content.css",
   "style-debug.css", "style-rtl.css", "vendor." ++ envName ++ ".js"]

/-- The `staticFiles` array at process start: no hash computed yet. -/
def initStaticFiles (envName : String) : List SFile :=
  (staticFilePaths envName).map (fun p => { path := p, hash := none })

/-- `hashFile`: a shortened MD5 hex digest of the file's contents, or the
current time rendered in decimal when the read fails. -/
def hashFile (fsys : String → Option (List Nat)) (md5hex : List Nat → String)
    (now : Nat) (path : String) : String :=
  match fsys path with
  | some data => (md5hex data).take HASH_LENGTH
  | none => Nat.repr now

/-- `getUrl` inside `generateStaticUrls`. -/
def getUrl (filename hash : String) : String :=
  URL_BASE_PATH ++ "/" ++ filename ++ "?" ++ qsStringify [("v", hash)]

/-- The `staticFiles.forEach` loop: fill each missing `file.hash` using
`h`, and collect the `(path, url)` bindings in order. Returns the bindings
and the updated (memoised) array. -/
def processStaticFiles (h : String → String) :
    List SFile → List (String × String) × List SFile
  | [] => ([], [])
  | f :: rest =>
    let hv := match f.hash with | some v => v | none => h f.path
    let tl := processStaticFiles h rest
    ((f.path, getUrl f.path hv) :: tl.1, { path := f.path, hash := some hv } :: tl.2)

/-- Word character of the regex `\w`. -/
def wordChar (c : Char) : Bool :=
  c.isAlphanum || c == '_'

/-- Scan for the first match of `\/calypso\/(\w+)\..*` in a URL (assumed to
contain no newline): returns the text before the match and the captured
word, or `none` when the regex does not match. -/
def chunkScan : List Char → Option (List Char × List Char)
  | [] => none
  | c :: cs =>
    let fallback := match chunkScan cs with
      | some (pre, w) => some (c :: pre, w)
      | none => none
    if "/calypso/".toList.isPrefixOf (c :: cs) then
      let after := (c :: cs).drop 9
      let w := after.takeWhile wordChar
      let rest := after.dropWhile wordChar
      if !w.isEmpty && rest.head? == some '.' then some ([], w)
      else fallback
    else fallback

/-- The name under which a manifest asset is stored: its `name` when
truthy, otherwise `asset.url.replace( /\/calypso\/(\w+)\..*/, '_$1' )`. -/
def assetNameOf (a : Asset) : String :=
  if jsTruthy a.name then a.name.getD ""
  else
    match chunkScan a.url.toList with
    | some (pre, w) => String.mk (pre ++ '_' :: w)
    | none => a.url

/-- One iteration of the `assets.forEach` loop in `generateStaticUrls`. -/
def assetStep (envName : String) (m : List (String × String)) (a : Asset) :
    List (String × String) :=
  let name := assetNameOf a
  let m1 := jsSet m name a.url
  if envName ≠ "development" then
    jsSet m1 (name ++ "-min") (jsReplaceFirst ".js" ".m.js" a.url)
  else m1

/-- Everything `generateStaticUrls` does after the static-file bindings are
known: build the object, add the `vendor` / `vendor-min` aliases, then fold
in the dynamic manifest. -/
def buildUrlMap (envName : String) (assets : List Asset)
    (pairs : List (String × String)) : List (String × String) :=
  let urls0 := pairs.foldl (fun m kv => jsSet m kv.1 kv.2) []
  let vendorUrl := (jsGet urls0 ("vendor." ++ envName ++ ".js")).getD ""
  let urls1 := jsSet (jsSet urls0 "vendor" vendorUrl) "vendor-min"
    (jsReplaceFirst ".js" ".m.js" vendorUrl)
  assets.foldl (assetStep envName) urls1

/-- `generateStaticUrls`: the name-to-URL map for one request, together
with the updated process-lifetime `staticFiles` hash memo. -/
def generateStaticUrls (fsys : String → Option (List Nat))
    (md5hex : List Nat → String) (now : Nat) (cwd : String) (envName : String)
    (assets : List Asset) (st : List SFile) :
    List (String × String) × List SFile :=
  (buildUrlMap envName assets
      (processStaticFiles
        (fun p => hashFile fsys md5hex now (cwd ++ SERVER_BASE_PATH ++ "/" ++ p)) st).1,
   (processStaticFiles
      (fun p => hashFile fsys md5hex now (cwd ++ SERVER_BASE_PATH ++ "/" ++ p)) st).2)

/-! ## Context builder and auth gate
(`getDefaultContext`, `setUpLoggedOutRoute`, `setUpLoggedInRoute`,
`setUpRoute`, `render404`) -/

/-- `getDefaultContext`: the fresh per-request context, threading the
static-file hash memo. -/
def getDefaultContext (E : Env) (req : Request) (st : List SFile) :
    Context × List SFile :=
  let pr := generateStaticUrls E.fsys E.md5hex E.now E.cwd E.cfg.env req.assets st
  ({ chunk := req.chunkCtx,
     compileDebug := E.cfg.env == "development",
     urls := pr.1,
     user := none,
     isDebug := (queryGet req.query "debug").isSome,
     lang := E.cfg.i18n_default_locale_slug,
     jsFile := "build",
     isRTL := none,
     app :=
       { clientIp :=
           if jsTruthy req.ip then req.ip.map (jsReplaceFirst "::ffff:" "")
           else req.ip,
         isDebug := (E.cfg.env == "development") || (queryGet req.query "debug").isSome,
         tinymceWpSkin := jsGet pr.1 "tinymce/skins/wordpress/wp-content.css",
         tinymceEditorCss := jsGet pr.1 "editor.css" } },
   pr.2)

/-- The one header this pipeline sets:
`res.set({ 'X-Frame-Options': 'SAMEORIGIN' })`. -/
def xfoHeaders : List (String × String) := [("X-Frame-Options", "SAMEORIGIN")]

/-- The login redirect URL built on the logged-in path: the configured
login URL with a `redirect_to` back to the original request, the scheme
taken from `X-Forwarded-Proto` (plain `http` unless it says `https`). -/
def loginRedirectUrl (E : Env) (req : Request) : String :=
  E.cfg.login_url ++ "?" ++ qsStringify
    [("redirect_to",
      (if req.xForwardedProto = some "https" then "https" else "http")
        ++ "://" ++ E.cfg.hostname ++ req.originalUrl)]

/-- The message logged for a non-authorization identity-service error:
code and message combined when the code is truthy, the message alone
otherwise. -/
def apiErrorMessage (e : ApiError) : String :=
  if jsTruthy e.error then e.error.getD "" ++ " " ++ e.message else e.message

/-- Merging the bootstrapped user object into the context: `context.user`,
`context.isRTL`, and a locale override when the user has a truthy
`localeSlug`. -/
def resolvedContext (ctx : Context) (data : UserData) : Context :=
  { ctx with
    user := some data,
    isRTL := some data.isRTL,
    lang := if jsTruthy data.localeSlug then data.localeSlug.getD ctx.lang else ctx.lang }

/-- The three legacy root-path query redirects checked after the user
resolves (search, e-mail verification, invite acceptance); `none` when the
request proceeds to the next middleware. Express always materialises
`req.query` as an object, so the source's `req.query &&` guard is truthy. -/
def rootRedirects (ctx : Context) (req : Request) : Option String :=
  if req.path = "/" then
    let searchParam :=
      if jsTruthy (queryGet req.query "s") then queryGet req.query "s"
      else queryGet req.query "q"
    if jsTruthy searchParam then
      some ("https://" ++ ctx.lang ++ ".search.wordpress.com/?q="
        ++ encodeURIComponent (searchParam.getD ""))
    else if jsTruthy (queryGet req.query "newuseremail") then
      some ("https://wordpress.com/verify-email/?" ++ qsStringify req.query)
    else if queryGet req.query "action" = some "wpcom-invite-users" then
      some ("https://wordpress.com/accept-invite/?" ++ qsStringify req.query)
    else none
  else none

/-- The response/API-call/log part of `setUpLoggedInRoute`, given the
already-built default context. -/
def loggedInCore (E : Env) (req : Request) (context : Context) : RouteOutcome :=
  if E.cfg.wpcom_user_bootstrap then
    if jsTruthy req.wordpress_logged_in then
      match E.userApi req.cookieHeader with
      | .error e =>
        if e.error = some "authorization_required" then
          { response := .redirect (loginRedirectUrl E req), headers := xfoHeaders,
            apiCalled := true, logged := none }
        else
          { response := .render 500 "500" context, headers := xfoHeaders,
            apiCalled := true, logged := some ("API Error: " ++ apiErrorMessage e) }
      | .ok data =>
        let ctx1 := resolvedContext context data
        match rootRedirects ctx1 req with
        | some url =>
          { response := .redirect url, headers := xfoHeaders,
            apiCalled := true, logged := none }
        | none =>
          { response := .next ctx1, headers := xfoHeaders,
            apiCalled := true, logged := none }
    else
      { response := .redirect (loginRedirectUrl E req), headers := xfoHeaders,
        apiCalled := false, logged := none }
  else
    { response := .next context, headers := xfoHeaders,
      apiCalled := false, logged := none }

/-- `setUpLoggedInRoute`. -/
def setUpLoggedInRoute (E : Env) (req : Request) (st : List SFile) :
    RouteOutcome × List SFile :=
  let pr := getDefaultContext E req st
  (loggedInCore E req pr.1, pr.2)

/-- `setUpLoggedOutRoute`: default context, the frame header, `next()`.
No identity-service call is issued. -/
def setUpLoggedOutRoute (E : Env) (req : Request) (st : List SFile) :
    RouteOutcome × List SFile :=
  let pr := getDefaultContext E req st
  ({ response := .next pr.1, headers := xfoHeaders,
     apiCalled := false, logged := none }, pr.2)

/-- `setUpRoute`: dispatch on the `wordpress_logged_in` cookie. -/
def setUpRoute (E : Env) (req : Request) (st : List SFile) :
    RouteOutcome × List SFile :=
  if jsTruthy req.wordpress_logged_in then setUpLoggedInRoute E req st
  else setUpLoggedOutRoute E req st

/-- `render404`: a 404 response rendering the `404` view with only the
asset map; no headers are set by this handler. -/
def render404 (E : Env) (req : Request) (st : List SFile) :
    RouteOutcome × List SFile :=
  let pr := generateStaticUrls E.fsys E.md5hex E.now E.cwd E.cfg.env req.assets st
  ({ response := .renderUrls 404 "404" pr.1, headers := [],
     apiCalled := false, logged := none }, pr.2)

/-! ## Legacy newdash rewriter (`app.use('/sites/:site/:section', ...)`) -/

/-- A character of the regex class `[0-9a-zA-Z\-\.]` used for the site
slug. -/
def siteChar (c : Char) : Bool :=
  c.isAlphanum || c == '-' || c == '.'

/-- `originalUrl.replace( /^\/sites\/[0-9a-zA-Z\-\.]+\/change\-theme/, '/themes' )`.
The class excludes `/`, so its greedy run is the maximal `siteChar` run and
no backtracking can arise. Unchanged when the regex does not match. -/
def rewriteChangeThemeL (l : List Char) : List Char :=
  if "/sites/".toList.isPrefixOf l then
    let rest := l.drop 7
    let run := rest.takeWhile siteChar
    let rest2 := rest.dropWhile siteChar
    if !run.isEmpty && "/change-theme".toList.isPrefixOf rest2 then
      "/themes".toList ++ rest2.drop 13
    else l
  else l

/-- `originalUrl.replace( /^\/sites\/[0-9a-zA-Z\-\.]+\/\w+/, '/' + section + '/' + site )`.
Unchanged when the regex does not match. -/
def rewriteSectionL (secName site : List Char) (l : List Char) : List Char :=
  if "/sites/".toList.isPrefixOf l then
    let rest := l.drop 7
    let run := rest.takeWhile siteChar
    match rest.dropWhile siteChar with
    | c :: rest3 =>
      if !run.isEmpty && c == '/' && !(rest3.takeWhile wordChar).isEmpty then
        '/' :: secName ++ '/' :: site ++ rest3.dropWhile wordChar
      else l
    | [] => l
  else l

/-- The allow-list assigned to `sections` inside the newdash handler. -/
def newdashSections : List String :=
  ["posts", "pages", "sharing", "upgrade", "checkout", "change-theme"]

/-- The `/sites/:site/:section` handler, given the Express route params and
the raw `req.originalUrl`: `some url` when it responds with a redirect,
`none` when it calls `next()`. -/
def newdashRedirect (site secName originalUrl : String) : Option String :=
  if newdashSections.contains secName then
    if secName == "change-theme" then
      some (String.mk (rewriteChangeThemeL originalUrl.toList))
    else
      some (String.mk (rewriteSectionL secName.toList site.toList originalUrl.toList))
  else none

/-- Split a path on `/`, accumulating the current segment reversed. -/
def splitSegsAux : List Char → List Char → List (List Char)
  | [], acc => [acc.reverse]
  | c :: rest, acc =>
    if c == '/' then acc.reverse :: splitSegsAux rest []
    else splitSegsAux rest (c :: acc)

/-- Express matching of `app.use('/sites/:site/:section', ...)` against a
request path: the mount path is a prefix at segment boundaries, and both
params are non-empty segments. -/
def matchSitesPath (path : String) : Option (String × String) :=
  match splitSegsAux path.toList [] with
  | pre :: seg1 :: site :: sec :: _ =>
    if pre.isEmpty && seg1 == "sites".toList && !site.isEmpty && !sec.isEmpty then
      some (String.mk site, String.mk sec)
    else none
  | _ => none

/-! ## Section registration (`module.exports`) -/

/-- A section-manifest entry, as consumed by the registrar; the module
reference of isomorphic sections is an external collaborator and omitted. -/
structure Section where
  name : String
  paths : List String
  isomorphic : Bool
  enableLoggedOut : Bool
deriving Repr, DecidableEq

/-- What happened on a non-isomorphic section route. -/
inductive SectionResult where
  | rendered (ctx : Context)
  | responded (o : RouteOutcome)
deriving Repr, DecidableEq

/-- A non-isomorphic section route as registered:
`app.get( pathRegex, section.enableLoggedOut ? setUpRoute : setUpLoggedInRoute, serverRender )`.
`serverRender` runs only when the gate calls `next()`. -/
def runNonIsomorphicSection (s : Section) (E : Env) (req : Request)
    (st : List SFile) : SectionResult × List SFile :=
  let pr := if s.enableLoggedOut then setUpRoute E req st else setUpLoggedInRoute E req st
  match pr.1.response with
  | .next ctx => (.rendered ctx, pr.2)
  | _ => (.responded pr.1, pr.2)

/-- The response of a section-route run, `none` when the section renderer
was invoked instead. -/
def outcomeResponse : SectionResult → Option ResponseAction
  | .rendered _ => none
  | .responded o => some o.response

/-- Modelled from the spec (refinement comparison only): the spec describes
the minified variant as the normal URL with its trailing `.js` replaced by
`.m.js`. This definition follows the spec's words, not the source. -/
def specReplaceTrailingJs (s : String) : String :=
  if ".js".toList.isSuffixOf s.toList then
    String.mk (s.toList.take (s.toList.length - 3) ++ ".m.js".toList)
  else s

/-! ## Concrete fixtures for witnesses -/

/-- A concrete configuration for witness evaluations. -/
def demoCfg : Config :=
  { env := "production",
    i18n_default_locale_slug := "en",
    hostname := "wordpress.com",
    login_url := "https://wordpress.com/wp-login.php",
    wpcom_user_bootstrap := true,
    discover_logged_out_redirect_url := "https://wordpress.com/discover-out",
    enabled := fun _ => false }

/-- A concrete environment: empty filesystem, fixed digest, fixed clock,
identity service answering `authorization_required`. -/
def demoEnvAuthErr : Env :=
  { cfg := demoCfg,
    fsys := fun _ => none,
    md5hex := fun _ => "0123456789abcdef0123456789abcdef",
    now := 7,
    cwd := "",
    userApi := fun _ => .error { error := some "authorization_required", message := "User cannot access this resource." } }

/-- A concrete environment whose identity service reports a generic
error. -/
def demoEnvOtherErr : Env :=
  { demoEnvAuthErr with
    userApi := fun _ => .error { error := some "server_error", message := "boom" } }

/-- A concrete environment whose identity service resolves a user with a
locale preference. -/
def demoEnvOkUser : Env :=
  { demoEnvAuthErr with
    userApi := fun _ => .ok { localeSlug := some "fr", isRTL := false } }

/-- A concrete environment with user-bootstrap disabled. -/
def demoEnvNoBootstrap : Env :=
  { demoEnvAuthErr with cfg := { demoCfg with wpcom_user_bootstrap := false } }

/-- A concrete request without the session cookie. -/
def demoReqNoCookie : Request :=
  { wordpress_logged_in := none,
    cookieHeader := none,
    xForwardedProto := none,
    originalUrl := "/",
    path := "/",
    query := [],
    ip := none,
    assets := [],
    chunkCtx := none }

/-- A concrete request carrying the session cookie. -/
def demoReqCookie : Request :=
  { demoReqNoCookie with
    wordpress_logged_in := some "token",
    cookieHeader := some "wordpress_logged_in=token" }

/-- A concrete logged-in root request searching for `hello`. -/
def demoReqSearch : Request :=
  { demoReqCookie with query := [("s", "hello")] }

/-- A concrete non-isomorphic section that does not allow logged-out
access. -/
def demoSection : Section :=
  { name := "me", paths := ["/me"], isomorphic := false, enableLoggedOut := false }

/-! ## Helper lemmas -/

/-- `toList` distributes over string append. -/
theorem strToList_append (a b : String) : (a ++ b).toList = a.toList ++ b.toList := by
  cases a
  cases b
  rfl

/-- Rebuilding a string from its characters is the identity. -/
theorem strMk_toList (s : String) : String.mk s.toList = s := by
  cases s
  rfl

/-- A list is a `isPrefixOf` any of its extensions. -/
theorem isPrefixOf_append_self (l t : List Char) : l.isPrefixOf (l ++ t) = true := by
  induction l with
  | nil => simp [List.isPrefixOf]
  | cons c cs ih => simp [List.isPrefixOf, ih]

/-- `takeWhile` runs through a block that wholly satisfies the predicate. -/
theorem takeWhile_append_all (p : Char → Bool) (l1 l2 : List Char)
    (h : ∀ c ∈ l1, p c = true) :
    (l1 ++ l2).takeWhile p = l1 ++ l2.takeWhile p := by
  induction l1 with
  | nil => rfl
  | cons c cs ih =>
    have hc : p c = true := h c (by simp)
    simp only [List.cons_append, List.takeWhile_cons, hc, if_true]
    rw [ih (fun x hx => h x (by simp [hx]))]

/-- `dropWhile` skips a block that wholly satisfies the predicate. -/
theorem dropWhile_append_all (p : Char → Bool) (l1 l2 : List Char)
    (h : ∀ c ∈ l1, p c = true) :
    (l1 ++ l2).dropWhile p = l2.dropWhile p := by
  induction l1 with
  | nil => rfl
  | cons c cs ih =>
    have hc : p c = true := h c (by simp)
    simp only [List.cons_append, List.dropWhile_cons, hc, if_true]
    exact ih (fun x hx => h x (by simp [hx]))

/-- Reading back the key just set. -/
theorem jsGet_jsSet_self (m : List (String × String)) (k v : String) :
    jsGet (jsSet m k v) k = some v := by
  induction m with
  | nil => simp [jsSet, jsGet]
  | cons p rest ih =>
    by_cases h : p.1 = k
    · simp [jsSet, jsGet, h]
    · simp [jsSet, jsGet, h, ih]

/-- Setting a different key does not change a lookup. -/
theorem jsGet_jsSet_ne (m : List (String × String)) (k k' v : String)
    (h : k' ≠ k) : jsGet (jsSet m k' v) k = jsGet m k := by
  induction m with
  | nil => simp [jsSet, jsGet, h]
  | cons p rest ih =>
    by_cases hp : p.1 = k'
    · simp [jsSet, jsGet, hp, h]
    · simp only [jsSet, hp, if_neg hp]
      by_cases hk : p.1 = k
      · simp [jsGet, hk]
      · simp [jsGet, hk, ih]

/-- Setting any key preserves presence of a key. -/
theorem isSome_jsGet_jsSet (m : List (String × String)) (k k' v : String)
    (h : (jsGet m k).isSome) : (jsGet (jsSet m k' v) k).isSome := by
  by_cases hk : k' = k
  · subst hk
    simp [jsGet_jsSet_self]
  · rw [jsGet_jsSet_ne m k k' v hk]
    exact h

/-- A key present in the accumulator or among the pairs is present after
folding the pairs in. -/
theorem isSome_jsGet_foldl_pairs (pairs : List (String × String))
    (m : List (String × String)) (k : String)
    (h : k ∈ pairs.map Prod.fst ∨ (jsGet m k).isSome) :
    (jsGet (pairs.foldl (fun m kv => jsSet m kv.1 kv.2) m) k).isSome := by
  induction pairs generalizing m with
  | nil =>
    rcases h with h | h
    · simp at h
    · exact h
  | cons kv rest ih =>
    simp only [List.foldl_cons]
    rcases h with h | h
    · rcases List.mem_map.mp h with ⟨p, hp, hfst⟩
      rcases List.mem_cons.mp hp with hp | hp
      · subst hp
        refine ih _ (Or.inr ?_)
        rw [← hfst, jsGet_jsSet_self]
        rfl
      · exact ih _ (Or.inl (List.mem_map.mpr ⟨p, hp, hfst⟩))
    · exact ih _ (Or.inr (isSome_jsGet_jsSet _ _ _ _ h))

/-- One manifest-asset step preserves presence of a key. -/
theorem isSome_jsGet_assetStep (envName : String) (m : List (String × String))
    (a : Asset) (k : String) (h : (jsGet m k).isSome) :
    (jsGet (assetStep envName m a) k).isSome := by
  unfold assetStep
  split
  · exact isSome_jsGet_jsSet _ _ _ _ (isSome_jsGet_jsSet _ _ _ _ h)
  · exact isSome_jsGet_jsSet _ _ _ _ h

/-- Folding the manifest assets in preserves presence of a key. -/
theorem isSome_jsGet_foldl_assetStep (envName : String) (assets : List Asset)
    (m : List (String × String)) (k : String) (h : (jsGet m k).isSome) :
    (jsGet (assets.foldl (assetStep envName) m) k).isSome := by
  induction assets generalizing m with
  | nil => exact h
  | cons a rest ih =>
    simp only [List.foldl_cons]
    exact ih _ (isSome_jsGet_assetStep _ _ _ _ h)

/-- An asset step on keys it does not write leaves a lookup unchanged. -/
theorem jsGet_assetStep_ne (envName : String) (m : List (String × String))
    (a : Asset) (k : String)
    (h1 : assetNameOf a ≠ k) (h2 : assetNameOf a ++ "-min" ≠ k) :
    jsGet (assetStep envName m a) k = jsGet m k := by
  unfold assetStep
  split
  · rw [jsGet_jsSet_ne _ _ _ _ h2, jsGet_jsSet_ne _ _ _ _ h1]
  · rw [jsGet_jsSet_ne _ _ _ _ h1]

/-- Folding assets that never write `k` leaves a lookup of `k` unchanged. -/
theorem jsGet_foldl_assetStep_ne (envName : String) (post : List Asset)
    (m : List (String × String)) (k : String)
    (h : ∀ b ∈ post, assetNameOf b ≠ k ∧ assetNameOf b ++ "-min" ≠ k) :
    jsGet (post.foldl (assetStep envName) m) k = jsGet m k := by
  induction post generalizing m with
  | nil => rfl
  | cons b rest ih =>
    simp only [List.foldl_cons]
    rw [ih _ (fun x hx => h x (by simp [hx])),
      jsGet_assetStep_ne _ _ _ _ (h b (by simp)).1 (h b (by simp)).2]

/-- The static-file loop binds exactly the file paths, in order. -/
theorem processStaticFiles_fst_map (h : String → String) (st : List SFile) :
    (processStaticFiles h st).1.map Prod.fst = st.map SFile.path := by
  induction st with
  | nil => rfl
  | cons f rest ih => simp [processStaticFiles, ih]

/-- Running the static-file loop a second time — with any other hash
function — recomputes nothing: the bindings and the memo are unchanged. -/
theorem processStaticFiles_idem (h h' : String → String) (st : List SFile) :
    processStaticFiles h' (processStaticFiles h st).2 = processStaticFiles h st := by
  induction st with
  | nil => rfl
  | cons f rest ih =>
    simp only [processStaticFiles]
    rw [ih]

/-! ## Claims -/

/-- C1: `setUpRoute` takes the logged-in setup path precisely when the
`wordpress_logged_in` session cookie is present (with a non-empty value,
the code's truthiness test), and a request lacking that cookie never issues
the identity-service call — neither through `setUpRoute` (which
short-circuits to the logged-out setup) nor through a direct
`setUpLoggedInRoute` entry, and the logged-out setup never issues it at
all. -/
theorem c1_cookie_gates_identity_call (E : Env) (req : Request) (st : List SFile) :
    (jsTruthy req.wordpress_logged_in = true →
      setUpRoute E req st = setUpLoggedInRoute E req st) ∧
    (jsTruthy req.wordpress_logged_in = false →
      setUpRoute E req st = setUpLoggedOutRoute E req st ∧
      (setUpRoute E req st).1.apiCalled = false ∧
      (setUpLoggedInRoute E req st).1.apiCalled = false) ∧
    (setUpLoggedOutRoute E req st).1.apiCalled = false := by
  refine ⟨fun h => ?_, fun h => ⟨?_, ?_, ?_⟩, ?_⟩
  · simp [setUpRoute, h]
  · simp [setUpRoute, h]
  · simp [setUpRoute, h, setUpLoggedOutRoute]
  · simp only [setUpLoggedInRoute, loggedInCore, h]
    cases hb : E.cfg.wpcom_user_bootstrap <;> simp
  · simp [setUpLoggedOutRoute]

/-- C1 witness: a concrete cookie-less request goes to the logged-out
setup and issues no identity call. -/
theorem c1_witness :
    (setUpRoute demoEnvAuthErr demoReqNoCookie []).1.apiCalled = false ∧
    (setUpLoggedInRoute demoEnvAuthErr demoReqNoCookie []).1.apiCalled = false :=
  ⟨((c1_cookie_gates_identity_call demoEnvAuthErr demoReqNoCookie []).2.1 (by rfl)).2.1,
   ((c1_cookie_gates_identity_call demoEnvAuthErr demoReqNoCookie []).2.1 (by rfl)).2.2⟩

/-- C4: with the session cookie present but user-bootstrap disabled by
configuration, the pipeline performs no identity call and no redirect, and
hands the next middleware a context whose `user` field is empty. -/
theorem c4_bootstrap_disabled_anonymous (E : Env) (req : Request) (st : List SFile)
    (hb : E.cfg.wpcom_user_bootstrap = false)
    (hc : jsTruthy req.wordpress_logged_in = true) :
    (setUpRoute E req st).1.response = .next (getDefaultContext E req st).1 ∧
    (getDefaultContext E req st).1.user = none ∧
    (setUpRoute E req st).1.apiCalled = false ∧
    ∀ u, (setUpRoute E req st).1.response ≠ .redirect u := by
  refine ⟨?_, rfl, ?_, ?_⟩ <;>
    simp [setUpRoute, hc, setUpLoggedInRoute, loggedInCore, hb]

/-- C4 witness at a concrete environment and request. -/
theorem c4_witness :
    (setUpRoute demoEnvNoBootstrap demoReqCookie []).1.apiCalled = false :=
  (c4_bootstrap_disabled_anonymous demoEnvNoBootstrap demoReqCookie []
    (by rfl) (by rfl)).2.2.1

/-- C2: when the identity call fails on the logged-in path, an
`authorization_required` code redirects to the login URL; any other error
renders the `500` view with status 500 and logs `API Error:` followed by
the code-and-message combination (the message alone when the code is not
truthy); in both cases `next` is not called. -/
theorem c2_identity_error_handling (E : Env) (req : Request) (st : List SFile)
    (e : ApiError)
    (hb : E.cfg.wpcom_user_bootstrap = true)
    (hc : jsTruthy req.wordpress_logged_in = true)
    (he : E.userApi req.cookieHeader = .error e) :
    (e.error = some "authorization_required" →
      (setUpLoggedInRoute E req st).1.response = .redirect (loginRedirectUrl E req)) ∧
    (e.error ≠ some "authorization_required" →
      (setUpLoggedInRoute E req st).1.response
          = .render 500 "500" (getDefaultContext E req st).1 ∧
      (setUpLoggedInRoute E req st).1.logged
          = some ("API Error: " ++ apiErrorMessage e)) ∧
    ∀ c, (setUpLoggedInRoute E req st).1.response ≠ .next c := by
  refine ⟨fun hcode => ?_, fun hcode => ?_, fun c => ?_⟩
  · simp [setUpLoggedInRoute, loggedInCore, hb, hc, he, hcode]
  · simp [setUpLoggedInRoute, loggedInCore, hb, hc, he, hcode]
  · simp only [setUpLoggedInRoute, loggedInCore, hb, hc, he, if_true]
    split <;> simp

/-- C2 witness: a concrete generic identity-service error yields the
combined log line (and, per the theorem, a 500 render). -/
theorem c2_witness :
    (setUpLoggedInRoute demoEnvOtherErr demoReqCookie []).1.logged
      = some ("API Error: "
          ++ apiErrorMessage { error := some "server_error", message := "boom" }) :=
  ((c2_identity_error_handling demoEnvOtherErr demoReqCookie []
      { error := some "server_error", message := "boom" }
      (by rfl) (by rfl) (by rfl)).2.1 (by decide)).2

/-- C9: a root-path request that reaches the logged-in-resolved state with
query parameter `s=hello` is redirected to the external search URL whose
subdomain is the resolved locale and whose `q` parameter is the
percent-encoding of `hello`. -/
theorem c9_root_search_redirect (E : Env) (req : Request) (st : List SFile)
    (data : UserData)
    (hb : E.cfg.wpcom_user_bootstrap = true)
    (hc : jsTruthy req.wordpress_logged_in = true)
    (hok : E.userApi req.cookieHeader = .ok data)
    (hpath : req.path = "/")
    (hs : queryGet req.query "s" = some "hello") :
    (setUpLoggedInRoute E req st).1.response
      = .redirect ("https://" ++ (resolvedContext (getDefaultContext E req st).1 data).lang
          ++ ".search.wordpress.com/?q=" ++ encodeURIComponent "hello") := by
  simp only [setUpLoggedInRoute, loggedInCore, hb, hc, hok, if_true]
  simp [rootRedirects, hpath, hs, jsTruthy]

/-- C9 witness: concrete user with locale `fr` searching for `hello` is
redirected to `https://fr.search.wordpress.com/?q=hello`. -/
theorem c9_witness :
    (setUpLoggedInRoute demoEnvOkUser demoReqSearch []).1.response
      = .redirect "https://fr.search.wordpress.com/?q=hello" :=
  c9_root_search_redirect demoEnvOkUser demoReqSearch []
    { localeSlug := some "fr", isRTL := false } rfl rfl rfl rfl rfl

/-- C5: the version token is always produced — the first `HASH_LENGTH`
(ten) characters of the MD5 hex digest of the file's contents when the
file is readable, and the current time in decimal otherwise — and every
static file receives a URL in the generated map whatever the filesystem
does. -/
theorem c5_hash_token_always_produced (fsys : String → Option (List Nat))
    (md5hex : List Nat → String) (now : Nat) (cwd : String) (p : String)
    (envName : String) (assets : List Asset) :
    (∀ data, fsys p = some data →
      hashFile fsys md5hex now p = (md5hex data).take HASH_LENGTH) ∧
    (fsys p = none → hashFile fsys md5hex now p = Nat.repr now) ∧
    (∀ f ∈ staticFilePaths envName,
      (jsGet (generateStaticUrls fsys md5hex now cwd envName assets
          (initStaticFiles envName)).1 f).isSome) := by
  refine ⟨fun data h => ?_, fun h => ?_, fun f hf => ?_⟩
  · simp [hashFile, h]
  · simp [hashFile, h]
  · have hmem : f ∈ (processStaticFiles
        (fun q => hashFile fsys md5hex now (cwd ++ SERVER_BASE_PATH ++ "/" ++ q))
        (initStaticFiles envName)).1.map Prod.fst := by
      rw [processStaticFiles_fst_map]
      simpa [initStaticFiles, List.map_map, Function.comp] using hf
    simp only [generateStaticUrls, buildUrlMap]
    exact isSome_jsGet_foldl_assetStep _ _ _ _
      (isSome_jsGet_jsSet _ _ _ _ (isSome_jsGet_jsSet _ _ _ _
        (isSome_jsGet_foldl_pairs _ _ _ (Or.inl hmem))))

/-- C5 witness: with an unreadable filesystem at time 7, the token is `7`
and `style.css` still gets a URL. -/
theorem c5_witness :
    hashFile (fun _ => none) (fun _ => "") 7 "/public/style.css" = Nat.repr 7 ∧
    (jsGet (generateStaticUrls (fun _ => none) (fun _ => "") 7 "" "production" []
        (initStaticFiles "production")).1 "style.css").isSome := by
  refine ⟨?_, ?_⟩
  · exact (c5_hash_token_always_produced (fun _ => none) (fun _ => "") 7 ""
      "/public/style.css" "production" []).2.1 rfl
  · exact (c5_hash_token_always_produced (fun _ => none) (fun _ => "") 7 ""
      "style.css" "production" []).2.2 "style.css" (by simp [staticFilePaths])

/-- C6: version tokens are computed at most once per process: after any
call of `generateStaticUrls`, a second call with the same environment name
and dynamic manifest — but arbitrarily different filesystem contents,
digest function, clock and working directory — returns the identical asset
URL map and leaves the memo untouched. -/
theorem c6_hash_memo_stable (fs1 : String → Option (List Nat))
    (m1 : List Nat → String) (n1 : Nat) (c1 : String)
    (fs2 : String → Option (List Nat)) (m2 : List Nat → String) (n2 : Nat)
    (c2 : String) (envName : String) (assets : List Asset) (st : List SFile) :
    generateStaticUrls fs2 m2 n2 c2 envName assets
        (generateStaticUrls fs1 m1 n1 c1 envName assets st).2
      = generateStaticUrls fs1 m1 n1 c1 envName assets st := by
  simp only [generateStaticUrls, processStaticFiles_idem]

/-- C7 counterexample: the catch-all 404 handler sets no headers at all,
so not every handled route sets `X-Frame-Options` — the claim fails at
this concrete request. -/
theorem c7_counterexample :
    (render404 demoEnvAuthErr demoReqNoCookie []).1.headers = [] ∧
    jsGet (render404 demoEnvAuthErr demoReqNoCookie []).1.headers "X-Frame-Options" = none :=
  ⟨rfl, rfl⟩

/-- C7 (amended): the logged-out and logged-in setup middlewares — hence
every request passing through `setUpRoute` — set
`X-Frame-Options: SAMEORIGIN`, but the catch-all 404 handler sets no
headers. -/
theorem c7_frame_header_on_setup_routes (E : Env) (req : Request) (st : List SFile) :
    jsGet (setUpRoute E req st).1.headers "X-Frame-Options" = some "SAMEORIGIN" ∧
    jsGet (setUpLoggedInRoute E req st).1.headers "X-Frame-Options" = some "SAMEORIGIN" ∧
    jsGet (setUpLoggedOutRoute E req st).1.headers "X-Frame-Options" = some "SAMEORIGIN" ∧
    (render404 E req st).1.headers = [] := by
  have hcore : ∀ c, (loggedInCore E req c).headers = xfoHeaders := by
    intro c
    unfold loggedInCore
    split
    · split
      · split
        · split <;> rfl
        · dsimp only
          split <;> rfl
      · rfl
    · rfl
  have hin : (setUpLoggedInRoute E req st).1.headers = xfoHeaders := hcore _
  refine ⟨?_, ?_, rfl, rfl⟩
  · unfold setUpRoute
    split
    · rw [hin]
      rfl
    · rfl
  · rw [hin]
    rfl

/-- Dropping the length of the first block of an append. -/
theorem drop_length_append (l t : List Char) : (l ++ t).drop l.length = t := by
  induction l with
  | nil => rfl
  | cons c cs ih => simp [ih]

/-- A non-empty character list has `isEmpty = false`. -/
theorem isEmpty_false_of_ne_nil (l : List Char) (h : l ≠ []) : l.isEmpty = false := by
  cases l with
  | nil => exact absurd rfl h
  | cons c cs => rfl

/-- The change-theme rewrite on a URL of the matched shape. -/
theorem rewriteChangeThemeL_eq (site restL : List Char)
    (hne : site ≠ []) (hall : ∀ c ∈ site, siteChar c = true) :
    rewriteChangeThemeL ("/sites/".toList ++ (site ++ ("/change-theme".toList ++ restL)))
      = "/themes".toList ++ restL := by
  have hct : ("/change-theme".toList ++ restL)
      = '/' :: ("change-theme".toList ++ restL) := rfl
  have htw0 : ("/change-theme".toList ++ restL).takeWhile siteChar = [] := by
    rw [hct, List.takeWhile_cons]
    simp [show siteChar '/' = false from rfl]
  have hdw0 : ("/change-theme".toList ++ restL).dropWhile siteChar
      = "/change-theme".toList ++ restL := by
    rw [hct, List.dropWhile_cons]
    simp [show siteChar '/' = false from rfl]
  unfold rewriteChangeThemeL
  rw [if_pos (isPrefixOf_append_self _ _)]
  have h7 : ("/sites/".toList).length = 7 := rfl
  rw [← h7, drop_length_append]
  dsimp only
  rw [takeWhile_append_all siteChar site _ hall,
    dropWhile_append_all siteChar site _ hall, htw0, hdw0, List.append_nil]
  rw [if_pos]
  · have h13 : ("/change-theme".toList).length = 13 := rfl
    rw [← h13, drop_length_append]
  · simp [isEmpty_false_of_ne_nil site hne, isPrefixOf_append_self]

/-- The generic section rewrite on a URL of the matched shape: the section
name is made of word characters and the trailing rest is empty or starts
with a non-word character. -/
theorem rewriteSectionL_eq (secName site restL : List Char)
    (hsne : secName ≠ []) (hsw : ∀ c ∈ secName, wordChar c = true)
    (hne : site ≠ []) (hall : ∀ c ∈ site, siteChar c = true)
    (hrest : restL = [] ∨ ∃ c r, restL = c :: r ∧ wordChar c = false) :
    rewriteSectionL secName site
        ("/sites/".toList ++ (site ++ ('/' :: (secName ++ restL))))
      = ('/' :: secName) ++ (('/' :: site) ++ restL) := by
  have htw : (secName ++ restL).takeWhile wordChar = secName := by
    rw [takeWhile_append_all wordChar secName _ hsw]
    rcases hrest with h | ⟨c, r, h, hw⟩
    · simp [h]
    · simp [h, List.takeWhile_cons, hw]
  have hdw : (secName ++ restL).dropWhile wordChar = restL := by
    rw [dropWhile_append_all wordChar secName _ hsw]
    rcases hrest with h | ⟨c, r, h, hw⟩
    · simp [h]
    · simp [h, List.dropWhile_cons, hw]
  have htw0 : ('/' :: (secName ++ restL)).takeWhile siteChar = [] := by
    rw [List.takeWhile_cons]
    simp [show siteChar '/' = false from rfl]
  have hdw0 : ('/' :: (secName ++ restL)).dropWhile siteChar
      = '/' :: (secName ++ restL) := by
    rw [List.dropWhile_cons]
    simp [show siteChar '/' = false from rfl]
  unfold rewriteSectionL
  rw [if_pos (isPrefixOf_append_self _ _)]
  have h7 : ("/sites/".toList).length = 7 := rfl
  rw [← h7, drop_length_append]
  dsimp only
  rw [takeWhile_append_all siteChar site _ hall,
    dropWhile_append_all siteChar site _ hall, htw0, hdw0, List.append_nil]
  dsimp only
  rw [htw, hdw, if_pos]
  · simp
  · simp [isEmpty_false_of_ne_nil site hne, isEmpty_false_of_ne_nil secName hsne]

/-- C3 counterexample: `/sites/my_site/upgrade` matches the route with an
allow-listed section, yet the handler redirects to the *unchanged* URL
(the rewrite regex's site class has no underscore), not to
`/upgrade/my_site` as the claim requires. -/
theorem c3_counterexample :
    matchSitesPath "/sites/my_site/upgrade" = some ("my_site", "upgrade") ∧
    newdashRedirect "my_site" "upgrade" "/sites/my_site/upgrade"
      = some "/sites/my_site/upgrade" ∧
    ("/sites/my_site/upgrade" : String) ≠ "/upgrade/my_site" := by
  refine ⟨by decide, by decide, by decide⟩

/-- C3 (amended): restricted to site slugs made of the characters the
rewrite regex accepts (`[0-9a-zA-Z\-\.]`, non-empty) and a trailing rest
that is empty or starts with `/` or `?`, the handler redirects allow-listed
sections as the claim states — `change-theme` to `/themes`, every other
allow-listed section to `/<section>/<site>` (rest preserved) — and passes
through any section not in the allow-list. -/
theorem c3_newdash_rewrites (site rest secName : String)
    (hne : site ≠ "") (hall : ∀ c ∈ site.toList, siteChar c = true)
    (hrest : rest = "" ∨ ∃ c r, rest.toList = c :: r ∧ (c = '/' ∨ c = '?')) :
    (secName ∈ (["posts", "pages", "sharing", "upgrade", "checkout"] : List String) →
      newdashRedirect site secName ("/sites/" ++ site ++ "/" ++ secName ++ rest)
        = some ("/" ++ secName ++ "/" ++ site ++ rest)) ∧
    (newdashRedirect site "change-theme" ("/sites/" ++ site ++ "/change-theme" ++ rest)
      = some ("/themes" ++ rest)) ∧
    (∀ sec url, newdashSections.contains sec = false →
      newdashRedirect site sec url = none) := by
  have hsl : site.toList ≠ [] := by
    intro h
    apply hne
    rw [← strMk_toList site, h]
  have hrestL : rest.toList = [] ∨
      ∃ c r, rest.toList = c :: r ∧ wordChar c = false := by
    rcases hrest with h | ⟨c, r, h, hc⟩
    · left
      rw [h]
      rfl
    · right
      refine ⟨c, r, h, ?_⟩
      rcases hc with hc | hc <;> rw [hc] <;> decide
  refine ⟨fun hmem => ?_, ?_, fun sec url hsec => ?_⟩
  · have hurl : ("/sites/" ++ site ++ "/" ++ secName ++ rest).toList
        = "/sites/".toList ++ (site.toList ++ ('/' :: (secName.toList ++ rest.toList))) := by
      simp only [strToList_append]
      have hs : ("/" : String).toList = ['/'] := rfl
      rw [hs]
      simp
    have hlist1 : ('/' :: secName.toList) ++ (('/' :: site.toList) ++ rest.toList)
        = ("/" ++ secName ++ "/" ++ site ++ rest).toList := by
      simp only [strToList_append]
      have hs : ("/" : String).toList = ['/'] := rfl
      rw [hs]
      simp
    have htgt : String.mk (('/' :: secName.toList) ++ (('/' :: site.toList) ++ rest.toList))
        = "/" ++ secName ++ "/" ++ site ++ rest := by
      rw [hlist1, strMk_toList]
    have hword : secName.toList ≠ [] ∧ ∀ c ∈ secName.toList, wordChar c = true := by
      fin_cases hmem <;> exact ⟨by decide, by decide⟩
    have hcontains : newdashSections.contains secName = true := by
      fin_cases hmem <;> decide
    have hnotct : (secName == "change-theme") = false := by
      fin_cases hmem <;> decide
    unfold newdashRedirect
    rw [hcontains, if_pos rfl, hnotct, if_neg (by simp), hurl,
      rewriteSectionL_eq secName.toList site.toList rest.toList
        hword.1 hword.2 hsl hall hrestL, htgt]
  · have hurl : ("/sites/" ++ site ++ "/change-theme" ++ rest).toList
        = "/sites/".toList ++ (site.toList ++ ("/change-theme".toList ++ rest.toList)) := by
      simp only [strToList_append]
      simp
    have htgt : String.mk ("/themes".toList ++ rest.toList) = "/themes" ++ rest := by
      rw [← strToList_append, strMk_toList]
    unfold newdashRedirect
    rw [if_pos (by decide), if_pos (by decide), hurl,
      rewriteChangeThemeL_eq site.toList rest.toList hsl hall, htgt]
  · unfold newdashRedirect
    rw [hsec]
    simp

/-- C3 witness for the amended theorem at the spec's own examples. -/
theorem c3_witness :
    newdashRedirect "123" "upgrade" ("/sites/" ++ "123" ++ "/" ++ "upgrade" ++ "")
        = some ("/" ++ "upgrade" ++ "/" ++ "123" ++ "") ∧
    newdashRedirect "123" "change-theme" ("/sites/" ++ "123" ++ "/change-theme" ++ "")
        = some ("/themes" ++ "") :=
  ⟨(c3_newdash_rewrites "123" "" "upgrade" (by decide) (by decide)
      (Or.inl rfl)).1 (by simp),
   (c3_newdash_rewrites "123" "" "upgrade" (by decide) (by decide)
      (Or.inl rfl)).2.1⟩

/-- C8 counterexample: in a non-development environment, an asset whose
URL contains `.js` twice gets a minified variant by *first-occurrence*
replacement, which differs from the spec's trailing-`.js` replacement at
this concrete input. -/
theorem c8_counterexample :
    jsGet (generateStaticUrls (fun _ => none) (fun _ => "") 0 "" "production"
        [{ name := some "foo", url := "/calypso/foo.js.js" }]
        (initStaticFiles "production")).1 "foo-min"
      = some "/calypso/foo.m.js.js" ∧
    specReplaceTrailingJs "/calypso/foo.js.js" = "/calypso/foo.js.m.js" ∧
    ("/calypso/foo.m.js.js" : String) ≠ "/calypso/foo.js.m.js" := by
  refine ⟨by decide, by decide, by decide⟩

/-- C8 (amended): in every non-development environment, each manifest
asset contributes a `<name>-min` entry whose URL is the asset URL with the
*first* occurrence of `.js` replaced by `.m.js` (equal to replacing the
trailing `.js` whenever `.js` occurs only as the suffix); the hypothesis
rules out later assets clobbering that key. -/
theorem c8_minified_variant (fsys : String → Option (List Nat))
    (md5hex : List Nat → String) (now : Nat) (cwd : String) (envName : String)
    (pre post : List Asset) (a : Asset) (st : List SFile)
    (hdev : envName ≠ "development")
    (hpost : ∀ b ∈ post, assetNameOf b ≠ assetNameOf a ++ "-min" ∧
      assetNameOf b ++ "-min" ≠ assetNameOf a ++ "-min") :
    jsGet (generateStaticUrls fsys md5hex now cwd envName (pre ++ a :: post) st).1
        (assetNameOf a ++ "-min")
      = some (jsReplaceFirst ".js" ".m.js" a.url) := by
  simp only [generateStaticUrls, buildUrlMap, List.foldl_append, List.foldl_cons]
  rw [jsGet_foldl_assetStep_ne _ _ _ _ hpost]
  unfold assetStep
  rw [if_pos hdev]
  exact jsGet_jsSet_self _ _ _

/-- C8 witness: a single concrete production asset gets its `-min` entry
by first-occurrence replacement. -/
theorem c8_witness :
    jsGet (generateStaticUrls (fun _ => none) (fun _ => "") 0 "" "production"
        ([] ++ { name := some "build", url := "/calypso/build.js" } :: [])
        (initStaticFiles "production")).1
        (assetNameOf { name := some "build", url := "/calypso/build.js" } ++ "-min")
      = some (jsReplaceFirst ".js" ".m.js" "/calypso/build.js") :=
  c8_minified_variant (fun _ => none) (fun _ => "") 0 "" "production" [] []
    { name := some "build", url := "/calypso/build.js" }
    (initStaticFiles "production") (by decide) (by intro b hb; cases hb)

/-- C10: a non-isomorphic section that does not allow logged-out access is
registered with `setUpLoggedInRoute` directly, so a cookie-less request to
one of its routes — with user-bootstrap enabled — is redirected to the
login URL and the section renderer is never invoked. -/
theorem c10_loggedin_only_section_redirects (s : Section) (E : Env)
    (req : Request) (st : List SFile)
    (_hiso : s.isomorphic = false) (helo : s.enableLoggedOut = false)
    (hc : jsTruthy req.wordpress_logged_in = false)
    (hb : E.cfg.wpcom_user_bootstrap = true) :
    outcomeResponse (runNonIsomorphicSection s E req st).1
      = some (.redirect (loginRedirectUrl E req)) ∧
    ∀ ctx, (runNonIsomorphicSection s E req st).1 ≠ .rendered ctx := by
  have hrun : (runNonIsomorphicSection s E req st).1
      = .responded ⟨.redirect (loginRedirectUrl E req), xfoHeaders, false, none⟩ := by
    unfold runNonIsomorphicSection
    rw [helo]
    simp only [setUpLoggedInRoute, loggedInCore, hb, hc, if_true, if_false,
      Bool.false_eq_true, Bool.true_eq_false]
  rw [hrun]
  exact ⟨rfl, fun ctx h => by cases h⟩

/-- C10 witness at a concrete section, environment and request. -/
theorem c10_witness :
    outcomeResponse (runNonIsomorphicSection demoSection demoEnvAuthErr
        demoReqNoCookie []).1
      = some (.redirect (loginRedirectUrl demoEnvAuthErr demoReqNoCookie)) :=
  (c10_loggedin_only_section_redirects demoSection demoEnvAuthErr
    demoReqNoCookie [] rfl rfl rfl rfl).1

end Calypso
